import Mathlib

/-!
Verification of the smart-table starter repository: a shallow embedding of
the rule-based object-comparison engine (`lib/compare.js`), the searching,
filtering and pagination stages (`components/searching.js`,
`components/filtering.js`, `components/pagination.js`) and the sorting stage
(`components/sorting.js`), together with theorems settling the specification
claims about them.

JavaScript values are modelled by the inductive type `JSValue`. Numbers are
modelled by `Int` plus a separate `nan` constructor (the dataset and all
claim-relevant arithmetic are integral); the float-specific behaviour of JS
numbers is outside the claims. Objects are association lists in insertion
order; `===` on objects/arrays is reference equality in JS, modelled
conservatively as `false` for distinct constructor applications (no claim
exercises object identity).
-/

namespace SmartTable

/-- A JavaScript runtime value, restricted to the shapes the table code
manipulates. -/
inductive JSValue where
  | undefined
  | null
  | nan
  | num (n : Int)
  | str (s : String)
  | boolean (b : Bool)
  | arr (elems : List JSValue)
  | obj (fields : List (String × JSValue))

/-- isEmpty from lib/compare.js: undefined, null, the empty string and NaN
count as empty. -/
def isEmpty : JSValue → Bool
  | .undefined => true
  | .null => true
  | .nan => true
  | .str s => s = ""
  | _ => false

/-- The guard `v && typeof v === 'object'` used by compare: true exactly for
(non-null) objects and arrays. -/
def isObjectJS : JSValue → Bool
  | .obj _ => true
  | .arr _ => true
  | _ => false

/-- First binding of a key in an association list (JS objects cannot hold a
key twice; lookups read the first occurrence in this model). -/
def lookupField : List (String × JSValue) → String → Option JSValue
  | [], _ => none
  | (k', v) :: rest, k => if k' = k then some v else lookupField rest k

/-- Property read `v[key]`: undefined when the key is absent or the value is
not an object; array reads parse the key as an index. -/
def getOwnJS : JSValue → String → JSValue
  | .obj fs, k => (lookupField fs k).getD .undefined
  | .arr xs, k => ((k.toNat?).bind (fun i => xs.get? i)).getD .undefined
  | _, _ => .undefined

/-- Object.prototype.hasOwnProperty.call(v, key). -/
def hasOwnJS : JSValue → String → Bool
  | .obj fs, k => (lookupField fs k).isSome
  | .arr xs, k => ((k.toNat?).map (fun i => decide (i < xs.length))).getD false
  | _, _ => false

/-- Own enumerable keys in insertion order, as traversed by `for (key in v)`
over plain objects and arrays. -/
def ownKeysOf : JSValue → List String
  | .obj fs => fs.map Prod.fst
  | .arr xs => (List.range xs.length).map toString
  | _ => []

/-- Assignment `fields[k] = x`: overwrite the existing binding in place, or
append a new one. -/
def setField : List (String × JSValue) → String → JSValue → List (String × JSValue)
  | [], k, x => [(k, x)]
  | (k', v) :: rest, k, x =>
      if k' = k then (k, x) :: rest else (k', v) :: setField rest k x

/-- Property write `v[k] = x` (a no-op on non-objects, which throw or discard
in JS; no claim writes to a non-object). -/
def setOwnJS : JSValue → String → JSValue → JSValue
  | .obj fs, k, x => .obj (setField fs k x)
  | v, _, _ => v

/-- Strict equality `===`. Primitives compare by value, NaN is unequal to
everything; objects and arrays compare by reference, modelled as false (no
claim compares an object to itself through an alias). -/
def jsStrictEq : JSValue → JSValue → Bool
  | .undefined, .undefined => true
  | .null, .null => true
  | .num a, .num b => a = b
  | .str a, .str b => a = b
  | .boolean a, .boolean b => a = b
  | _, _ => false

/-- Does `sub` occur at the start of `l`? -/
def startsWithList : List Char → List Char → Bool
  | _, [] => true
  | [], _ :: _ => false
  | x :: xs, y :: ys => x = y && startsWithList xs ys

/-- Does `sub` occur contiguously anywhere inside `l`? -/
def hasSubList : List Char → List Char → Bool
  | [], sub => sub.isEmpty
  | x :: xs, sub => startsWithList (x :: xs) sub || hasSubList xs sub

/-- String.prototype.includes. -/
def strIncl (s sub : String) : Bool := hasSubList s.toList sub.toList

mutual

/-- String(v) conversion, as used by the search rule. -/
def jsToString : JSValue → String
  | .undefined => "undefined"
  | .null => "null"
  | .nan => "NaN"
  | .num n => toString n
  | .str s => s
  | .boolean b => if b then "true" else "false"
  | .arr xs => String.intercalate "," (jsToStringList xs)
  | .obj _ => "[object Object]"

/-- Array elements joined by Array.prototype.toString: null and undefined
elements print as the empty string. -/
def jsToStringList : List JSValue → List String
  | [] => []
  | v :: vs =>
      (match v with
        | .undefined => ""
        | .null => ""
        | w => jsToString w) :: jsToStringList vs

end

/-- Number(s) on a string: empty/whitespace is 0, an optionally signed
integer numeral parses, anything else is NaN (none). Fractional numerals are
outside this integral model. -/
def strToNumber (s : String) : Option Int :=
  let t := s.trim
  if t = "" then some 0
  else if t.startsWith "-" then ((t.drop 1).toNat?).map (fun n => -(n : Int))
  else (t.toNat?).map (fun n => (n : Int))

/-- ToNumber coercion used by the relational operators; `none` is NaN. -/
def toNumberJS : JSValue → Option Int
  | .undefined => none
  | .null => some 0
  | .nan => none
  | .num n => some n
  | .boolean b => some (if b then 1 else 0)
  | .str s => strToNumber s
  | .arr xs => strToNumber (jsToString (.arr xs))
  | .obj _ => none

/-- The abstract relational comparison `a < b`: string/string compares
lexicographically, otherwise both sides coerce to numbers and any NaN makes
the comparison false. -/
def jsLt (a b : JSValue) : Bool :=
  match a, b with
  | .str s, .str t => s < t
  | _, _ =>
      match toNumberJS a, toNumberJS b with
      | some x, some y => x < y
      | _, _ => false

/-- a > b in JS is the relational comparison with the operands swapped. -/
def jsGt (a b : JSValue) : Bool := jsLt b a

/-- The four object shapes a rule can return: `\x7bskip: true\x7d`,
`\x7bskip: false\x7d`, `\x7bresult: b\x7d` and `\x7bcontinue: true\x7d`. The
compare loop treats `skipFalse` and `cont` identically (fall through to the
next rule), but both are kept so each rule reads off its source. -/
inductive RuleOutput where
  | skipTrue
  | skipFalse
  | result (b : Bool)
  | cont
deriving DecidableEq

/-- A rule: (key, sourceValue, targetValue, source, target) → signal. -/
abbrev Rule := String → JSValue → JSValue → JSValue → JSValue → RuleOutput

/-- rules.skipNonExistentSourceFields — the factory closes over the source
object handed to it by createComparison. -/
def skipNonExistentSourceFields (source : JSValue) : Rule :=
  fun key _ _ _ _ =>
    if hasOwnJS source key then .skipFalse else .skipTrue

/-- rules.skipEmptyTargetValues. -/
def skipEmptyTargetValues : Rule :=
  fun _ _ targetValue _ _ =>
    if isEmpty targetValue then .skipTrue else .skipFalse

/-- rules.failOnEmptySource. -/
def failOnEmptySource : Rule :=
  fun _ sourceValue _ _ _ =>
    if isEmpty sourceValue then .result false else .cont

/-- rules.arrayAsRange: a 2-element array target is an inclusive [from, to]
bound (each end enforced only when non-empty); any other array is a decisive
non-match; non-arrays fall through. -/
def arrayAsRange : Rule :=
  fun _ sourceValue targetValue _ _ =>
    match targetValue with
    | .arr l =>
        match l with
        | [lo, hi] =>
            if !isEmpty lo && jsLt sourceValue lo then .result false
            else if !isEmpty hi && jsGt sourceValue hi then .result false
            else .result true
        | _ => .result false
    | _ => .cont

/-- rules.stringIncludes. -/
def stringIncludes : Rule :=
  fun _ sourceValue targetValue _ _ =>
    match sourceValue, targetValue with
    | .str s, .str t => .result (strIncl s t)
    | _, _ => .cont

/-- rules.caseInsensitiveStringIncludes. -/
def caseInsensitiveStringIncludes : Rule :=
  fun _ sourceValue targetValue _ _ =>
    match sourceValue, targetValue with
    | .str s, .str t => .result (strIncl s.toLower t.toLower)
    | _, _ => .cont

/-- rules.stringExactMatch. -/
def stringExactMatch : Rule :=
  fun _ sourceValue targetValue _ _ =>
    match sourceValue, targetValue with
    | .str s, .str t => .result (s = t)
    | _, _ => .cont

/-- rules.exactEquality (strict `===`). -/
def exactEquality : Rule :=
  fun _ sourceValue targetValue _ _ => .result (jsStrictEq sourceValue targetValue)

/-- rules.numericTolerance with an integral tolerance (default 0.001 rounds
to 0 on integers; the table never instantiates this rule). -/
def numericTolerance (tolerance : Int) : Rule :=
  fun _ sourceValue targetValue _ _ =>
    match sourceValue, targetValue with
    | .num a, .num b => .result ((a - b).natAbs ≤ tolerance.toNat)
    | _, _ => .cont

/-- rules.searchMultipleFields: active only on the designated search key;
skips on an empty query, otherwise scans the configured source fields for
substring containment of the query. -/
def searchMultipleFields (searchKey : String) (searchFields : List String)
    (caseSensitive : Bool) : Rule :=
  fun key _ targetValue source _ =>
    if key ≠ searchKey then .cont
    else if isEmpty targetValue then .skipTrue
    else
      let searchTerm := jsToString targetValue
      let found := searchFields.any (fun field =>
        hasOwnJS source field &&
          (let fieldValue := getOwnJS source field
           !isEmpty fieldValue &&
             (let sourceFieldValue := jsToString fieldValue
              if caseSensitive then strIncl sourceFieldValue searchTerm
              else strIncl sourceFieldValue.toLower searchTerm.toLower)))
      .result found

/-- Outcome of running the rule chain over one target field, mirroring the
inner loop of compare: `skipProperty` set, a decisive `ruleResult`, or the
chain exhausted with `ruleResult` still null. -/
inductive FieldVerdict where
  | skipped
  | exhausted
  | decided (b : Bool)
deriving DecidableEq

/-- The inner rule loop of compare: the first `\x7bskip: true\x7d` skips the
field, the first `result` decides it, everything else falls through. -/
def evalRules (rulesList : List Rule) (key : String) (sourceValue targetValue : JSValue)
    (source target : JSValue) : FieldVerdict :=
  match rulesList with
  | [] => .exhausted
  | rule :: rest =>
      match rule key sourceValue targetValue source target with
      | .skipTrue => .skipped
      | .result b => .decided b
      | _ => evalRules rest key sourceValue targetValue source target

/-- The outer key loop of compare: a field decided `false` rejects the whole
record; skipped, exhausted and `true` fields move on. -/
def compareKeys (keys : List String) (source target : JSValue)
    (rulesList : List Rule) : Bool :=
  match keys with
  | [] => true
  | key :: rest =>
      match evalRules rulesList key (getOwnJS source key) (getOwnJS target key)
          source target with
      | .decided false => false
      | _ => compareKeys rest source target rulesList

/-- compare either returns a boolean or throws. -/
inductive CompareResult where
  | ret (b : Bool)
  | thrown
deriving DecidableEq

/-- compare from lib/compare.js: non-object arguments return false first; an
empty rules list (the representable invalid rules list) then throws; otherwise
every own key of the target is checked in insertion order. -/
def compare (source target : JSValue) (rulesList : List Rule) : CompareResult :=
  if !isObjectJS source || !isObjectJS target then .ret false
  else if rulesList.isEmpty then .thrown
  else .ret (compareKeys (ownKeysOf target) source target rulesList)

/-- The default rule chain createComparison(defaultRules) builds for a given
source record (skipNonExistentSourceFields is constructed with the source). -/
def defaultChain (source : JSValue) : List Rule :=
  [skipNonExistentSourceFields source, skipEmptyTargetValues, failOnEmptySource,
   arrayAsRange, stringIncludes, exactEquality]

/-- The chain initSearching builds: skipEmptyTargetValues plus
searchMultipleFields over date, customer and seller, case-insensitive. -/
def searchChain (searchField : String) : List Rule :=
  [skipEmptyTargetValues,
   searchMultipleFields searchField ["date", "customer", "seller"] false]

/-- Unwraps a compare call whose chain is known non-empty (the stages below
always pass non-empty chains, so the thrown branch is unreachable there). -/
def compareBool (source target : JSValue) (rulesList : List Rule) : Bool :=
  match compare source target rulesList with
  | .ret b => b
  | .thrown => false

/-- initSearching(searchField) applied to (data, state): filter the rows by
the search comparator. The action argument is ignored by the source. -/
def initSearching (searchField : String) (data : List JSValue)
    (state : JSValue) : List JSValue :=
  data.filter (fun row => compareBool row state (searchChain searchField))

/-- initFiltering's returned stage for a non-clear action: synthesize
state.total = [state.totalFrom, state.totalTo], then filter the rows with the
default comparator. (The clear-action branch resets a DOM input and one state
field; it is outside this embedding and no claim depends on it.) -/
def initFiltering (data : List JSValue) (state : JSValue) : List JSValue :=
  let state2 := setOwnJS state "total"
    (.arr [getOwnJS state "totalFrom", getOwnJS state "totalTo"])
  data.filter (fun row => compareBool row state2 (defaultChain row))

/-- The page state the pagination stage reads: state.rowsPerPage and
state.page (parseInt results; the page is an integer so out-of-range action
results such as page 0 on empty data stay representable). -/
structure PageState where
  rowsPerPage : Nat
  page : Int

/-- The submit buttons the pagination switch recognises, plus `other` for any
different action name (which leaves the page untouched). -/
inductive PageAction where
  | prev
  | next
  | first
  | last
  | other
deriving DecidableEq

/-- Everything the pagination stage computes: the returned slice plus the
status numbers written to the DOM (fromRow, toRow, totalRows) and the
intermediate pageCount and resolved page. -/
structure PaginateOutput (α : Type) where
  pageCount : Int
  page : Int
  fromRow : Int
  toRow : Int
  totalRows : Nat
  rows : List α

/-- Resolution of one Array.prototype.slice index: negative indices count
from the end, then the index clamps into [0, len]. -/
def sliceIndex (len : Nat) (i : Int) : Nat :=
  if i < 0 then ((len : Int) + i).toNat else min i.toNat len

/-- Array.prototype.slice(start, stop). -/
def jsSlice {α : Type} (xs : List α) (start stop : Int) : List α :=
  (xs.take (sliceIndex xs.length stop)).drop (sliceIndex xs.length start)

/-- The stage initPagination returns, on (data, state, action):
pageCount = Math.ceil(data.length / rowsPerPage), the action switch resolves
the page, and the slice skips (page - 1) * rowsPerPage rows. (The ℚ ceiling
matches Math.ceil for the positive rowsPerPage the form supplies; the
division-by-zero value Infinity is not modelled.) -/
def initPagination {α : Type} (data : List α) (state : PageState)
    (action : Option PageAction) : PaginateOutput α :=
  let rowsPerPage := state.rowsPerPage
  let pageCount : Int := ⌈(data.length : ℚ) / (rowsPerPage : ℚ)⌉
  let page : Int :=
    match action with
    | some .prev => max 1 (state.page - 1)
    | some .next => min pageCount (state.page + 1)
    | some .first => 1
    | some .last => pageCount
    | _ => state.page
  let skip : Int := (page - 1) * rowsPerPage
  { pageCount := pageCount
    page := page
    fromRow := (page - 1) * rowsPerPage + 1
    toRow := min (page * rowsPerPage) (data.length : Int)
    totalRows := data.length
    rows := jsSlice data skip (skip + rowsPerPage) }

/-- One sortable header element: its data-field and data-value attributes. -/
structure Column where
  field : String
  value : String
deriving DecidableEq

/-- Modelled from the spec: sortMap lives in lib/sort.js, which is not under
src/. Per §4.5 it advances the per-column cycle none → ascending →
descending → none; other inputs are sent to "none". -/
def sortMap : String → String
  | "none" => "ascending"
  | "ascending" => "descending"
  | _ => "none"

/-- The two mutations of the sort branch of initSorting applied positionally:
the action is columns[i]; its data-value advances through sortMap (#3.1), and
every column whose data-field differs from the action's is reset to "none"
(#3.2). Columns sharing the action's field but distinct from it are left
unchanged, exactly as the forEach guard does. -/
def sortStepAux (actVal actField : String) : Nat → List Column → List Column
  | _, [] => []
  | 0, c :: rest =>
      { c with value := actVal } ::
        rest.map (fun c' =>
          if c'.field ≠ actField then { c' with value := "none" } else c')
  | j + 1, c :: rest =>
      (if c.field ≠ actField then { c with value := "none" } else c) ::
        sortStepAux actVal actField j rest

/-- The column-state update initSorting performs when action.name is "sort"
and the action element is columns[i]; out-of-range indices (no action column)
leave the list unchanged. -/
def initSortingStep (columns : List Column) (i : Nat) : List Column :=
  match columns.get? i with
  | none => columns
  | some a => sortStepAux (sortMap a.value) a.field i columns

/-! Helper lemmas shared by the claim theorems. -/

theorem compare_obj (source target : JSValue) (rulesList : List Rule)
    (hs : isObjectJS source = true) (ht : isObjectJS target = true)
    (hr : rulesList ≠ []) :
    compare source target rulesList
      = .ret (compareKeys (ownKeysOf target) source target rulesList) := by
  simp [compare, hs, ht, hr]

theorem compare_nonObject (source target : JSValue) (rulesList : List Rule)
    (h : isObjectJS source = false ∨ isObjectJS target = false) :
    compare source target rulesList = .ret false := by
  rcases h with h | h <;> simp [compare, h]

theorem compareKeys_eq_true (keys : List String) (source target : JSValue)
    (rulesList : List Rule)
    (h : ∀ k ∈ keys, evalRules rulesList k (getOwnJS source k) (getOwnJS target k)
        source target ≠ .decided false) :
    compareKeys keys source target rulesList = true := by
  induction keys with
  | nil => rfl
  | cons k rest ih =>
      have hk := h k (by simp)
      have hrest : ∀ k' ∈ rest, evalRules rulesList k' (getOwnJS source k')
          (getOwnJS target k') source target ≠ .decided false :=
        fun k' hk' => h k' (List.mem_cons_of_mem _ hk')
      cases hv : evalRules rulesList k (getOwnJS source k) (getOwnJS target k)
          source target with
      | skipped => simp [compareKeys, hv, ih hrest]
      | exhausted => simp [compareKeys, hv, ih hrest]
      | decided b =>
          cases b with
          | false => exact absurd hv hk
          | true => simp [compareKeys, hv, ih hrest]

theorem compareKeys_false_exists (keys : List String) (source target : JSValue)
    (rulesList : List Rule)
    (h : compareKeys keys source target rulesList = false) :
    ∃ k ∈ keys, evalRules rulesList k (getOwnJS source k) (getOwnJS target k)
        source target = .decided false := by
  induction keys with
  | nil => simp [compareKeys] at h
  | cons k rest ih =>
      cases hv : evalRules rulesList k (getOwnJS source k) (getOwnJS target k)
          source target with
      | skipped =>
          rw [compareKeys, hv] at h
          obtain ⟨k', hk', hd⟩ := ih h
          exact ⟨k', by simp [hk'], hd⟩
      | exhausted =>
          rw [compareKeys, hv] at h
          obtain ⟨k', hk', hd⟩ := ih h
          exact ⟨k', by simp [hk'], hd⟩
      | decided b =>
          cases b with
          | false => exact ⟨k, by simp, hv⟩
          | true =>
              rw [compareKeys, hv] at h
              obtain ⟨k', hk', hd⟩ := ih h
              exact ⟨k', by simp [hk'], hd⟩

theorem ceil_natCast_div (n p : Nat) (hp : 0 < p) :
    ⌈(n : ℚ) / (p : ℚ)⌉ = (((n + p - 1) / p : Nat) : Int) := by
  have hp' : (0 : ℚ) < (p : ℚ) := by exact_mod_cast hp
  have hdm := Nat.div_add_mod (n + p - 1) p
  have hmod := Nat.mod_lt (n + p - 1) hp
  have hub : n ≤ p * ((n + p - 1) / p) := by omega
  have hlb : p * ((n + p - 1) / p) < n + p := by omega
  set q : Nat := (n + p - 1) / p with hq
  rw [Int.ceil_eq_iff]
  constructor
  · rw [lt_div_iff₀ hp']
    have hc : (p : ℚ) * (q : ℚ) < (n : ℚ) + (p : ℚ) := by exact_mod_cast hlb
    push_cast
    nlinarith
  · rw [div_le_iff₀ hp']
    have hc : (n : ℚ) ≤ (p : ℚ) * (q : ℚ) := by exact_mod_cast hub
    push_cast
    nlinarith

theorem initPagination_pageCount {α : Type} (data : List α) (state : PageState)
    (action : Option PageAction) (hp : 0 < state.rowsPerPage) :
    (initPagination data state action).pageCount
      = (((data.length + state.rowsPerPage - 1) / state.rowsPerPage : Nat) : Int) := by
  simpa [initPagination] using ceil_natCast_div data.length state.rowsPerPage hp

/-! Claim theorems. -/

/-- C1 counterexample: the claim says compare fails with a hard error when
source is not an object even with an invalid (empty) rules list, but
`compare(null, \x7b\x7d, [])` returns false instead of throwing — the
non-object check precedes the rules-list check. -/
theorem c1_counterexample :
    compare JSValue.null (JSValue.obj []) [] = CompareResult.ret false
      ∧ CompareResult.ret false ≠ CompareResult.thrown := by
  exact ⟨rfl, by decide⟩

/-- C1 (amended): compare throws on a missing/empty rule chain only when both
source and target pass the object guard; non-object arguments return false
before the rules list is ever examined. -/
theorem c1_empty_rules_throws (source target : JSValue)
    (hs : isObjectJS source = true) (ht : isObjectJS target = true) :
    compare source target [] = CompareResult.thrown := by
  simp [compare, hs, ht]

/-- Witness for C1: two concrete objects with an empty rules list throw. -/
theorem c1_empty_rules_throws_witness :
    compare (JSValue.obj []) (JSValue.obj [("a", JSValue.num 1)]) []
      = CompareResult.thrown :=
  c1_empty_rules_throws (JSValue.obj []) (JSValue.obj [("a", JSValue.num 1)]) rfl rfl

/-- C2 counterexample: the claim gives pageCount a minimum of 1 even for
empty data, but the stage computes Math.ceil(0 / 5) = 0 pages. -/
theorem c2_counterexample :
    (initPagination ([] : List Nat) ⟨5, 1⟩ none).pageCount = 0
      ∧ (initPagination ([] : List Nat) ⟨5, 1⟩ none).pageCount ≠ 1 := by
  have h : (initPagination ([] : List Nat) ⟨5, 1⟩ none).pageCount = 0 := by
    simp [initPagination]
  exact ⟨h, by rw [h]; decide⟩

/-- C2 (amended): for positive rowsPerPage the paginate stage computes
pageCount = ceil(N / P) = (N + P - 1) div P with no minimum; empty data
yields pageCount 0, not 1. -/
theorem c2_pageCount {α : Type} (data : List α) (state : PageState)
    (action : Option PageAction) (hp : 0 < state.rowsPerPage) :
    (initPagination data state action).pageCount
        = (((data.length + state.rowsPerPage - 1) / state.rowsPerPage : Nat) : Int)
      ∧ (data = [] → (initPagination data state action).pageCount = 0) := by
  refine ⟨initPagination_pageCount data state action hp, ?_⟩
  rintro rfl
  rw [initPagination_pageCount [] state action hp]
  have h0 : (List.length ([] : List α) + state.rowsPerPage - 1) / state.rowsPerPage = 0 :=
    Nat.div_eq_of_lt (by simp; omega)
  rw [h0]
  rfl

/-- Witness for C2: three rows at two per page give ceil(3/2) = 2 pages. -/
theorem c2_pageCount_witness :
    (initPagination ([1, 2, 3] : List Nat) ⟨2, 1⟩ none).pageCount
      = (((3 + 2 - 1) / 2 : Nat) : Int) :=
  (c2_pageCount ([1, 2, 3] : List Nat) ⟨2, 1⟩ none (by decide)).1

/-- C3: a field whose rule chain ran to the end without a skip or a result
never causes compare to reject the record — whenever compare returns false,
some target field was decided false by a rule. -/
theorem c3_exhausted_field_passes (source target : JSValue) (rulesList : List Rule)
    (hs : isObjectJS source = true) (ht : isObjectJS target = true)
    (hr : rulesList ≠ [])
    (hfalse : compare source target rulesList = CompareResult.ret false) :
    ∃ k ∈ ownKeysOf target,
      evalRules rulesList k (getOwnJS source k) (getOwnJS target k) source target
        = FieldVerdict.decided false := by
  rw [compare_obj source target rulesList hs ht hr] at hfalse
  exact compareKeys_false_exists _ _ _ _ (CompareResult.ret.inj hfalse)

/-- Witness for C3: a record failing strict equality on field a is rejected,
and the rejection is pinned to a decided-false verdict on that field. -/
theorem c3_exhausted_field_passes_witness :
    ∃ k ∈ ownKeysOf (JSValue.obj [("a", JSValue.num 2)]),
      evalRules [exactEquality] k
          (getOwnJS (JSValue.obj [("a", JSValue.num 1)]) k)
          (getOwnJS (JSValue.obj [("a", JSValue.num 2)]) k)
          (JSValue.obj [("a", JSValue.num 1)]) (JSValue.obj [("a", JSValue.num 2)])
        = FieldVerdict.decided false :=
  c3_exhausted_field_passes (JSValue.obj [("a", JSValue.num 1)])
    (JSValue.obj [("a", JSValue.num 2)]) [exactEquality] rfl rfl (by simp)
    (by decide)

/-- C8: a criteria object with zero fields accepts every object record under
any non-empty rule chain. -/
theorem c8_empty_criteria_passes (source : JSValue) (rulesList : List Rule)
    (hs : isObjectJS source = true) (hr : rulesList ≠ []) :
    compare source (JSValue.obj []) rulesList = CompareResult.ret true := by
  rw [compare_obj source (JSValue.obj []) rulesList hs rfl hr]
  rfl

/-- Witness for C8: a concrete record against empty criteria under the
default chain. -/
theorem c8_empty_criteria_passes_witness :
    compare (JSValue.obj [("total", JSValue.num 5)]) (JSValue.obj [])
        (defaultChain (JSValue.obj [("total", JSValue.num 5)]))
      = CompareResult.ret true :=
  c8_empty_criteria_passes (JSValue.obj [("total", JSValue.num 5)])
    (defaultChain (JSValue.obj [("total", JSValue.num 5)])) rfl
    (by simp [defaultChain])

/-- C9: a null or non-object source or target makes compare return false
without throwing, whatever the rules list is — the non-object check precedes
the rules-list check. -/
theorem c9_nonObject_returns_false (source target : JSValue) (rulesList : List Rule)
    (h : isObjectJS source = false ∨ isObjectJS target = false) :
    compare source target rulesList = CompareResult.ret false := by
  rcases h with h | h <;> simp [compare, h]

/-- Witness for C9: a numeric source with an empty rules list returns false
rather than throwing. -/
theorem c9_nonObject_returns_false_witness :
    compare (JSValue.num 3) (JSValue.obj []) [] = CompareResult.ret false :=
  c9_nonObject_returns_false (JSValue.num 3) (JSValue.obj []) [] (Or.inl rfl)

/-- C4: on a numeric source value and a 2-element numeric range the range
rule yields true exactly on a ≤ v ≤ b and false outside, and any array of a
different length is a decisive false. -/
theorem c4_range_rule (key : String) (s t : JSValue) (v a b : Int) :
    (a ≤ v → v ≤ b →
      arrayAsRange key (JSValue.num v) (JSValue.arr [JSValue.num a, JSValue.num b]) s t
        = RuleOutput.result true)
    ∧ (v < a ∨ b < v →
      arrayAsRange key (JSValue.num v) (JSValue.arr [JSValue.num a, JSValue.num b]) s t
        = RuleOutput.result false)
    ∧ (∀ l : List JSValue, l.length ≠ 2 → ∀ sv : JSValue,
      arrayAsRange key sv (JSValue.arr l) s t = RuleOutput.result false) := by
  refine ⟨?_, ?_, ?_⟩
  · intro h1 h2
    simp [arrayAsRange, isEmpty, jsLt, jsGt, toNumberJS, not_lt.mpr h1, not_lt.mpr h2]
  · intro h
    rcases h with h | h
    · simp [arrayAsRange, isEmpty, jsLt, jsGt, toNumberJS, h]
    · simp [arrayAsRange, isEmpty, jsLt, jsGt, toNumberJS, h, not_lt.mpr (le_of_lt h)]
  · intro l hl sv
    match l with
    | [] => rfl
    | [x] => rfl
    | [x, y] => exact absurd rfl hl
    | x :: y :: z :: rest => rfl

/-- Witness for C4: 5 lies in [1, 9] and a 1-element array is a decisive
false. -/
theorem c4_range_rule_witness :
    arrayAsRange "total" (JSValue.num 5) (JSValue.arr [JSValue.num 1, JSValue.num 9])
        JSValue.null JSValue.null = RuleOutput.result true
    ∧ arrayAsRange "total" (JSValue.num 5) (JSValue.arr [JSValue.num 1])
        JSValue.null JSValue.null = RuleOutput.result false :=
  ⟨(c4_range_rule "total" JSValue.null JSValue.null 5 1 9).1 (by decide) (by decide),
   (c4_range_rule "total" JSValue.null JSValue.null 5 1 9).2.2 [JSValue.num 1]
     (by decide) (JSValue.num 5)⟩

/-- C5: when the state's search-query value is empty, the search stage keeps
every object row, whatever other keys the state holds — the stage is the
identity on the collection. -/
theorem c5_empty_query_identity (searchField : String) (data : List JSValue)
    (state : JSValue)
    (hstate : isObjectJS state = true)
    (hquery : isEmpty (getOwnJS state searchField) = true)
    (hrows : ∀ row ∈ data, isObjectJS row = true) :
    initSearching searchField data state = data := by
  unfold initSearching
  rw [List.filter_eq_self]
  intro row hrow
  have hcmp : compare row state (searchChain searchField) =
      CompareResult.ret (compareKeys (ownKeysOf state) row state (searchChain searchField)) :=
    compare_obj row state _ (hrows row hrow) hstate (by simp [searchChain])
  have hkeys : ∀ k ∈ ownKeysOf state,
      evalRules (searchChain searchField) k (getOwnJS row k) (getOwnJS state k)
        row state ≠ FieldVerdict.decided false := by
    intro k _
    by_cases he : isEmpty (getOwnJS state k) = true
    · simp [searchChain, evalRules, skipEmptyTargetValues, he]
    · have hne : k ≠ searchField := by
        intro h
        exact he (h ▸ hquery)
      simp [searchChain, evalRules, skipEmptyTargetValues,
        Bool.not_eq_true (isEmpty (getOwnJS state k)) ▸ he,
        searchMultipleFields, hne]
  simp [compareBool, hcmp, compareKeys_eq_true _ _ _ _ hkeys]

/-- Witness for C5: an empty search string leaves a one-row collection
untouched. -/
theorem c5_empty_query_identity_witness :
    initSearching "search" [JSValue.obj [("date", JSValue.str "x")]]
        (JSValue.obj [("search", JSValue.str ""), ("page", JSValue.num 1)])
      = [JSValue.obj [("date", JSValue.str "x")]] :=
  c5_empty_query_identity "search" [JSValue.obj [("date", JSValue.str "x")]]
    (JSValue.obj [("search", JSValue.str ""), ("page", JSValue.num 1)]) rfl
    (by decide) (by decide)

/-- C7: with a current page inside [1, pageCount], first yields 1, last
yields pageCount, next at the last page and prev at page 1 are no-ops, and
all four actions land inside [1, pageCount]. -/
theorem c7_page_actions {α : Type} (data : List α) (state : PageState)
    (h1 : 1 ≤ state.page)
    (h2 : state.page ≤ (initPagination data state none).pageCount) :
    ((initPagination data state (some PageAction.first)).page = 1)
    ∧ ((initPagination data state (some PageAction.last)).page
        = (initPagination data state none).pageCount)
    ∧ (state.page = (initPagination data state none).pageCount →
        (initPagination data state (some PageAction.next)).page = state.page)
    ∧ (state.page = 1 →
        (initPagination data state (some PageAction.prev)).page = state.page)
    ∧ (∀ a : PageAction, a ≠ PageAction.other →
        1 ≤ (initPagination data state (some a)).page
          ∧ (initPagination data state (some a)).page
              ≤ (initPagination data state none).pageCount) := by
  have h2' : state.page ≤ ⌈(data.length : ℚ) / (state.rowsPerPage : ℚ)⌉ := h2
  have hpc : (1 : Int) ≤ ⌈(data.length : ℚ) / (state.rowsPerPage : ℚ)⌉ :=
    le_trans h1 h2'
  refine ⟨rfl, rfl, ?_, ?_, ?_⟩
  · intro h
    have h' : state.page = ⌈(data.length : ℚ) / (state.rowsPerPage : ℚ)⌉ := h
    show min ⌈(data.length : ℚ) / (state.rowsPerPage : ℚ)⌉ (state.page + 1)
      = state.page
    rw [h']
    exact min_eq_left (by omega)
  · intro h
    show max 1 (state.page - 1) = state.page
    rw [h]
    norm_num
  · intro a ha
    cases a with
    | prev =>
        refine ⟨le_max_left _ _, ?_⟩
        show max 1 (state.page - 1)
          ≤ ⌈(data.length : ℚ) / (state.rowsPerPage : ℚ)⌉
        exact max_le hpc (by omega)
    | next =>
        refine ⟨?_, min_le_left _ _⟩
        show (1 : Int)
          ≤ min ⌈(data.length : ℚ) / (state.rowsPerPage : ℚ)⌉ (state.page + 1)
        exact le_min hpc (by omega)
    | first => exact ⟨le_refl 1, hpc⟩
    | last => exact ⟨hpc, le_refl _⟩
    | other => exact absurd rfl ha

/-- Witness for C7: next at the last page (page 2 of 2 for three rows, two
per page) is a no-op. -/
theorem c7_page_actions_witness :
    (initPagination ([1, 2, 3] : List Nat) ⟨2, 2⟩ (some PageAction.next)).page
      = (⟨2, 2⟩ : PageState).page := by
  have heq : (⟨2, 2⟩ : PageState).page
      = (initPagination ([1, 2, 3] : List Nat) (⟨2, 2⟩ : PageState) none).pageCount := by
    rw [initPagination_pageCount ([1, 2, 3] : List Nat) ⟨2, 2⟩ none (by decide)]
    decide
  exact (c7_page_actions ([1, 2, 3] : List Nat) ⟨2, 2⟩ (by decide)
    (le_of_eq heq)).2.2.1 heq

/-- Element-wise description of the sort-branch update: the action index gets
the advanced value, every other index keeps its column unless its field
differs from the action's, in which case its order becomes none. -/
theorem sortStepAux_get (actVal actField : String) (i j : Nat) (cs : List Column) :
    (sortStepAux actVal actField i cs)[j]?
      = (cs[j]?).map (fun c =>
          if j = i then { c with value := actVal }
          else if c.field ≠ actField then { c with value := "none" } else c) := by
  induction cs generalizing i j with
  | nil => simp [sortStepAux]
  | cons c rest ih =>
      match i, j with
      | 0, 0 => simp [sortStepAux]
      | 0, j' + 1 => simp [sortStepAux]
      | i' + 1, 0 => simp [sortStepAux]
      | i' + 1, j' + 1 => simpa [sortStepAux] using ih i' j'

/-- C6: a sort action on the column at index i resets every other column's
order to none (the columns carry pairwise-distinct data-field names, as the
two header buttons of the app do), so at most one column of the result holds
a non-none order. -/
theorem c6_sort_resets_others (columns : List Column) (i : Nat)
    (hi : i < columns.length)
    (hnd : (columns.map Column.field).Nodup) :
    (∀ j, j < columns.length → j ≠ i →
        ((initSortingStep columns i)[j]?).map Column.value = some "none")
    ∧ (∀ j j', j < columns.length → j' < columns.length →
        ((initSortingStep columns i)[j]?).map Column.value ≠ some "none" →
        ((initSortingStep columns i)[j']?).map Column.value ≠ some "none" →
        j = j') := by
  have hgeti : columns[i]? = some columns[i] := List.getElem?_eq_getElem hi
  have hstep : initSortingStep columns i
      = sortStepAux (sortMap columns[i].value) columns[i].field i columns := by
    rw [initSortingStep]
    rw [show columns.get? i = some columns[i] by
      rw [List.get?_eq_getElem?]; exact hgeti]
  have main : ∀ j, j < columns.length → j ≠ i →
      ((initSortingStep columns i)[j]?).map Column.value = some "none" := by
    intro j hj hne
    have hgetj : columns[j]? = some columns[j] := List.getElem?_eq_getElem hj
    have hfield : columns[j].field ≠ columns[i].field := by
      intro heq
      apply hne
      have hj2 : j < (columns.map Column.field).length := by simpa using hj
      have hi2 : i < (columns.map Column.field).length := by simpa using hi
      have hmap : (columns.map Column.field)[j] = (columns.map Column.field)[i] := by
        simpa [List.getElem_map] using heq
      exact hnd.getElem_inj_iff.mp hmap
    rw [hstep, sortStepAux_get, hgetj]
    simp [hne, hfield]
  refine ⟨main, ?_⟩
  intro j j' hj hj' hv hv'
  have e1 : j = i := by
    by_contra h
    exact hv (main j hj h)
  have e2 : j' = i := by
    by_contra h
    exact hv' (main j' hj' h)
  rw [e1, e2]

/-- Witness for C6: sorting by date resets the total column to none, and the
date column is the only one that can hold a non-none order. -/
theorem c6_sort_resets_others_witness :
    ((initSortingStep [⟨"date", "none"⟩, ⟨"total", "ascending"⟩] 0)[1]?).map
        Column.value = some "none" :=
  (c6_sort_resets_others [⟨"date", "none"⟩, ⟨"total", "ascending"⟩] 0
    (by decide) (by decide)).1 1 (by decide) (by decide)

/-- C10 counterexample: the claim says the synthesized range ['', '']
accepts every record, but the filter chain runs failOnEmptySource before
arrayAsRange, so a record whose own total field holds an empty value is
rejected: filtering the one-record collection with empty bounds returns the
empty collection. -/
theorem c10_counterexample :
    initFiltering [JSValue.obj [("total", JSValue.str "")]]
        (JSValue.obj [("totalFrom", JSValue.str ""), ("totalTo", JSValue.str "")])
      = []
    ∧ [JSValue.obj [("total", JSValue.str "")]] ≠ ([] : List JSValue) := by
  exact ⟨rfl, by simp⟩

/-- C10 (amended): the range rule checks each bound only when non-empty —
both bounds empty yields true for every source value, an empty lower bound
enforces only v ≤ hi, an empty upper bound only lo ≤ v — and under the filter
stage's default chain the synthesized ['', ''] range on the total key accepts
every record whose total field is absent (skipped) or non-empty (range passes),
while a record whose own total field is empty is rejected by the
required-source guard before the range rule runs. -/
theorem c10_range_bounds :
    (∀ (key : String) (s t v lo hi : JSValue), isEmpty lo = true → isEmpty hi = true →
        arrayAsRange key v (JSValue.arr [lo, hi]) s t = RuleOutput.result true)
    ∧ (∀ (key : String) (s t lo : JSValue) (x b : Int), isEmpty lo = true →
        arrayAsRange key (JSValue.num x) (JSValue.arr [lo, JSValue.num b]) s t
          = RuleOutput.result (decide (x ≤ b)))
    ∧ (∀ (key : String) (s t hi : JSValue) (x a : Int), isEmpty hi = true →
        arrayAsRange key (JSValue.num x) (JSValue.arr [JSValue.num a, hi]) s t
          = RuleOutput.result (decide (a ≤ x)))
    ∧ (∀ row state : JSValue,
        evalRules (defaultChain row) "total" (getOwnJS row "total")
            (JSValue.arr [JSValue.str "", JSValue.str ""]) row state
          = if hasOwnJS row "total" = false then FieldVerdict.skipped
            else if isEmpty (getOwnJS row "total") = true then
              FieldVerdict.decided false
            else FieldVerdict.decided true) := by
  refine ⟨?_, ?_, ?_, ?_⟩
  · intro key s t v lo hi hlo hhi
    simp [arrayAsRange, hlo, hhi]
  · intro key s t lo x b hlo
    have hnum : isEmpty (JSValue.num b) = false := rfl
    have hgt : jsGt (JSValue.num x) (JSValue.num b) = decide (b < x) := rfl
    by_cases h : b < x
    · simp [arrayAsRange, hlo, hnum, hgt, h, show ¬(x ≤ b) by omega]
    · simp [arrayAsRange, hlo, hnum, hgt, h, show x ≤ b by omega]
  · intro key s t hi x a hhi
    have hnum : isEmpty (JSValue.num a) = false := rfl
    have hlt : jsLt (JSValue.num x) (JSValue.num a) = decide (x < a) := rfl
    by_cases h : x < a
    · simp [arrayAsRange, hhi, hnum, hlt, h, show ¬(a ≤ x) by omega]
    · simp [arrayAsRange, hhi, hnum, hlt, h, show a ≤ x by omega]
  · intro row state
    have harrEmpty : isEmpty (JSValue.arr [JSValue.str "", JSValue.str ""]) = false := rfl
    have hrange : arrayAsRange "total" (getOwnJS row "total")
        (JSValue.arr [JSValue.str "", JSValue.str ""]) row state
          = RuleOutput.result true := by
      simp [arrayAsRange, isEmpty]
    by_cases hown : hasOwnJS row "total" = true
    · by_cases hemp : isEmpty (getOwnJS row "total") = true
      · simp [defaultChain, evalRules, skipNonExistentSourceFields,
          skipEmptyTargetValues, failOnEmptySource, hown, hemp, harrEmpty]
      · have hemp' : isEmpty (getOwnJS row "total") = false := by simpa using hemp
        simp [defaultChain, evalRules, skipNonExistentSourceFields,
          skipEmptyTargetValues, failOnEmptySource, hown, hemp', harrEmpty, hrange]
    · have hown' : hasOwnJS row "total" = false := by simpa using hown
      simp [defaultChain, evalRules, skipNonExistentSourceFields, hown']

/-- Witness for C10: an empty lower bound enforces only the upper bound at
5 ≤ 9, both bounds empty accept undefined, and a record with a non-empty
total passes the synthesized empty range while one with an empty total is
decided false. -/
theorem c10_range_bounds_witness :
    arrayAsRange "total" (JSValue.num 5)
        (JSValue.arr [JSValue.str "", JSValue.num 9]) JSValue.null JSValue.null
      = RuleOutput.result (decide ((5 : Int) ≤ 9))
    ∧ arrayAsRange "total" JSValue.undefined
        (JSValue.arr [JSValue.str "", JSValue.str ""]) JSValue.null JSValue.null
      = RuleOutput.result true
    ∧ evalRules (defaultChain (JSValue.obj [("total", JSValue.num 42)])) "total"
        (getOwnJS (JSValue.obj [("total", JSValue.num 42)]) "total")
        (JSValue.arr [JSValue.str "", JSValue.str ""])
        (JSValue.obj [("total", JSValue.num 42)]) (JSValue.obj [])
      = if hasOwnJS (JSValue.obj [("total", JSValue.num 42)]) "total" = false then
          FieldVerdict.skipped
        else if isEmpty (getOwnJS (JSValue.obj [("total", JSValue.num 42)]) "total")
            = true then FieldVerdict.decided false
        else FieldVerdict.decided true :=
  ⟨c10_range_bounds.2.1 "total" JSValue.null JSValue.null (JSValue.str "") 5 9 rfl,
   c10_range_bounds.1 "total" JSValue.null JSValue.null JSValue.undefined
     (JSValue.str "") (JSValue.str "") rfl rfl,
   c10_range_bounds.2.2.2 (JSValue.obj [("total", JSValue.num 42)]) (JSValue.obj [])⟩

end SmartTable

